import Mathlib

/-!
Shallow embedding of `src/pore_model.hpp` (UNCALLED k-mer emission model).

Conventions of the embedding:
* C++ `float` values are modelled as real numbers (`ℝ`); `sqrtf`/`logf`/`M_PI`
  become `Real.sqrt`/`Real.log`/`Real.pi`.
* The k-mer codec (`str_to_kmer<KLEN>`, `kmer_comp<KLEN>`, `kmer_count<KLEN>`)
  lives in `bp.hpp`, outside this core; it is passed in as explicit function
  parameters, exactly as the constructor consumes it.
* `std::vector<float>` members indexed by a k-mer id are modelled as functions
  `ℕ → ℝ`; `resize` default-initialises every slot to `0`, and the constructor
  then writes the `-1` sentinel at index `kmer_count_`.
* In-place mutation of a caller-supplied batch (`normalize`) is modelled as
  returning the new batch.
* Output written to `std::cerr` by the loader is collected in a list of the
  offending k-mer ids.
-/

namespace Uncalled

/-- `struct NormParams { float shift, scale; }`. -/
structure NormParams where
  shift : ℝ
  scale : ℝ


/-- The external `Event` type: one observed measurement exposing a scalar
`mean` field (produced by `event_detector.hpp`, outside this core). -/
structure Event where
  mean : ℝ


/-- One data row of a model file, restricted to the fields the loader stores:
the k-mer token and the `level_mean`/`level_stdv` columns.  The remaining
columns (`sd_mean`, `sd_stdv`, `ig_lambda`, `weight`) are extracted from the
stream but never stored per row. -/
structure Row where
  kmer_str : String
  lv_mean : ℝ
  lv_stdv : ℝ

/-- The `PoreModel<KLEN>` object after construction.  `k_` is `Option ℕ`:
`some v` when the member `u8 k_` has been assigned the value `v`, `none` when
the constructor left it uninitialised (indeterminate). -/
structure PoreModel where
  lv_means_ : ℕ → ℝ
  lv_vars_x2_ : ℕ → ℝ
  lognorm_denoms_ : ℕ → ℝ
  model_mean_ : ℝ
  model_stdv_ : ℝ
  kmer_count_ : ℕ
  k_ : Option ℕ
  loaded_ : Bool

/-- `bool is_loaded() const { return loaded_; }` -/
def PoreModel.is_loaded (m : PoreModel) : Bool :=
  m.loaded_

/-- `inline u8 kmer_len() const { return k_; }` — returns the member `k_`,
`none` meaning the member was never assigned. -/
def PoreModel.kmer_len (m : PoreModel) : Option ℕ :=
  m.k_

/-- `float event_match_prob(float e, u16 k_id) const`. -/
noncomputable def PoreModel.event_match_prob (m : PoreModel) (e : ℝ) (k_id : ℕ) : ℝ :=
  (-((e - m.lv_means_ k_id) ^ 2) / m.lv_vars_x2_ k_id) - m.lognorm_denoms_ k_id

/-- `float event_match_prob(const Event &e, u16 k_id) const`. -/
noncomputable def PoreModel.event_match_prob_event (m : PoreModel) (e : Event) (k_id : ℕ) : ℝ :=
  m.event_match_prob e.mean k_id

/-- `NormParams get_norm_params(const std::vector<float> &events) const`. -/
noncomputable def PoreModel.get_norm_params (m : PoreModel) (events : List ℝ) : NormParams :=
  let events_mean := (events.foldl (fun a e => a + e) 0) / (events.length : ℝ)
  let events_stdv :=
    Real.sqrt ((events.foldl (fun a e => a + (e - events_mean) ^ 2) 0) / (events.length : ℝ))
  let scale := m.model_stdv_ / events_stdv
  { shift := m.model_mean_ - scale * events_mean, scale := scale }

/-- `NormParams get_norm_params(const std::vector<Event> &events) const`. -/
noncomputable def PoreModel.get_norm_params_events (m : PoreModel) (events : List Event) :
    NormParams :=
  let events_mean := (events.foldl (fun a e => a + e.mean) 0) / (events.length : ℝ)
  let events_stdv :=
    Real.sqrt ((events.foldl (fun a e => a + (e.mean - events_mean) ^ 2) 0) / (events.length : ℝ))
  let scale := m.model_stdv_ / events_stdv
  { shift := m.model_mean_ - scale * events_mean, scale := scale }

/-- `void normalize(std::vector<float> &events, NormParams norm={0,0}) const`;
the mutation of `events` is modelled by returning the new vector.  The default
argument `{0,0}` corresponds to passing `⟨0, 0⟩`. -/
noncomputable def PoreModel.normalize (m : PoreModel) (events : List ℝ) (norm : NormParams) :
    List ℝ :=
  let n := if norm.scale = 0 then m.get_norm_params events else norm
  events.map (fun e => n.scale * e + n.shift)

/-- `void normalize(std::vector<Event> &events, NormParams norm={0,0}) const`;
only the `mean` field of each event is rewritten. -/
noncomputable def PoreModel.normalize_events (m : PoreModel) (events : List Event)
    (norm : NormParams) : List Event :=
  let n := if norm.scale = 0 then m.get_norm_params_events events else norm
  events.map (fun e => { e with mean := n.scale * e.mean + n.shift })

/-! ### The loading loop of `PoreModel(std::string model_fname, bool complement)`

The constructor body, once the header has been scanned and the first row
extracted, runs a `do { process; read } while (!eof)` loop over the data rows.
For a stream that opened and whose rows all parse, this processes each data
row exactly once, in order; we model its state and one processing step. -/

/-- Mutable state during the read loop: the three per-k-mer arrays, the
running `model_mean_` accumulator, and the ids printed to `std::cerr`. -/
structure LoadState where
  lv_means_ : ℕ → ℝ
  lv_vars_x2_ : ℕ → ℝ
  lognorm_denoms_ : ℕ → ℝ
  model_mean_ : ℝ
  cerr : List ℕ

/-- The identifier a row is stored under: `kmer = str_to_kmer<KLEN>(kmer_str)`,
then `kmer = kmer_comp<KLEN>(kmer)` when the `complement` flag is set.  The
codec functions are the external parameters. -/
def effKmer (str_to_kmer : String → ℕ) (kmer_comp : ℕ → ℕ) (complement : Bool)
    (row : Row) : ℕ :=
  let kmer := str_to_kmer row.kmer_str
  if complement then kmer_comp kmer else kmer

/-- One iteration of the row loop (lines 108–130 of the source): decode the
token, optionally complement, and either store the row's parameters
(`kmer < kmer_count_`; the `kmer < 0` half of the guard is vacuous for the
unsigned `u16`) or print the invalid id to `std::cerr` and store nothing. -/
noncomputable def processRow (kmer_count_ : ℕ) (str_to_kmer : String → ℕ)
    (kmer_comp : ℕ → ℕ) (complement : Bool) (st : LoadState) (row : Row) : LoadState :=
  let kmer := effKmer str_to_kmer kmer_comp complement row
  if kmer < kmer_count_ then
    let vars_x2 := 2 * row.lv_stdv * row.lv_stdv
    { st with
      lv_means_ := Function.update st.lv_means_ kmer row.lv_mean
      lv_vars_x2_ := Function.update st.lv_vars_x2_ kmer vars_x2
      lognorm_denoms_ :=
        Function.update st.lognorm_denoms_ kmer (Real.log (Real.sqrt (Real.pi * vars_x2)))
      model_mean_ := st.model_mean_ + row.lv_mean }
  else
    { st with cerr := st.cerr ++ [kmer] }

/-- State before the loop: `resize(kmer_count_+1)` value-initialises every
slot of the three arrays to `0`, then index `kmer_count_` is set to the `-1`
sentinel; `model_mean_ = 0`; nothing printed yet. -/
noncomputable def initState (kmer_count_ : ℕ) : LoadState :=
  { lv_means_ := Function.update (fun _ => 0) kmer_count_ (-1)
    lv_vars_x2_ := Function.update (fun _ => 0) kmer_count_ (-1)
    lognorm_denoms_ := Function.update (fun _ => 0) kmer_count_ (-1)
    model_mean_ := 0
    cerr := [] }

/-- Final loop state for a given row list. -/
noncomputable def loadLoop (kmer_count_ : ℕ) (str_to_kmer : String → ℕ) (kmer_comp : ℕ → ℕ)
    (complement : Bool) (rows : List Row) : LoadState :=
  rows.foldl (processRow kmer_count_ str_to_kmer kmer_comp complement) (initState kmer_count_)

/-- The constructor `PoreModel(model_fname, complement)` on a stream that
opened and delivered `rows`: after the loop, `model_mean_ /= kmer_count_`,
`model_stdv_` is the square root of the mean over ids `0 ≤ kmer < kmer_count_`
of the squared deviation, and `loaded_ = true`.  The member `k_` is never
assigned on this path (`none`). -/
noncomputable def loadPoreModel (kmer_count_ : ℕ) (str_to_kmer : String → ℕ)
    (kmer_comp : ℕ → ℕ) (complement : Bool) (rows : List Row) : PoreModel :=
  let st := loadLoop kmer_count_ str_to_kmer kmer_comp complement rows
  let model_mean := st.model_mean_ / (kmer_count_ : ℝ)
  let model_stdv :=
    Real.sqrt
      (((List.range kmer_count_).foldl (fun a kmer => a + (st.lv_means_ kmer - model_mean) ^ 2) 0)
        / (kmer_count_ : ℝ))
  { lv_means_ := st.lv_means_
    lv_vars_x2_ := st.lv_vars_x2_
    lognorm_denoms_ := st.lognorm_denoms_
    model_mean_ := model_mean
    model_stdv_ := model_stdv
    kmer_count_ := kmer_count_
    k_ := none
    loaded_ := true }

/-- The ids the loader prints to `std::cerr` while processing `rows`. -/
noncomputable def loadCerr (kmer_count_ : ℕ) (str_to_kmer : String → ℕ) (kmer_comp : ℕ → ℕ)
    (complement : Bool) (rows : List Row) : List ℕ :=
  (loadLoop kmer_count_ str_to_kmer kmer_comp complement rows).cerr

/-! ### The constructor on a file that fails to open

`std::ifstream model_in(model_fname)` sets `failbit` when the file cannot be
opened.  Every subsequent `getline`/`operator>>` constructs a sentry that
fails (the stream is not `good()`), re-asserts `failbit` and transfers
nothing — in particular `eofbit` is never set.  We model the stream's flag
state and one token extraction. -/

/-- C++ input-stream flag state plus the number of unread tokens. -/
structure StreamState where
  fail : Bool
  eof : Bool
  tokensLeft : ℕ

/-- One `operator>>` extraction: a stream that is not `good()` only gets
`failbit` re-asserted (the sentry fails before any read); a good stream with
no token left sets `eofbit` and `failbit`; otherwise one token is consumed. -/
def extractToken (s : StreamState) : StreamState :=
  if s.fail || s.eof then { s with fail := true }
  else if s.tokensLeft = 0 then { s with fail := true, eof := true }
  else { s with tokensLeft := s.tokensLeft - 1 }

/-- A stream whose `open` failed: `failbit` set from construction, `eofbit`
clear, no tokens obtainable. -/
def failedOpenStream : StreamState :=
  { fail := true, eof := false, tokensLeft := 0 }

/-- One iteration of the constructor's `do … while (!model_in.eof())` loop
performs the chained extractions of one row (3–7 tokens depending on the
column layout). -/
def readRowTokens (numTokens : ℕ) (s : StreamState) : StreamState :=
  extractToken^[numTokens] s

/-- The `do`-loop has run to completion after `iters` iterations exactly when
the stream then reports `eof` (the `while (!model_in.eof())` guard fails). -/
def ctorLoopExits (numTokens iters : ℕ) : Prop :=
  ((readRowTokens numTokens)^[iters] failedOpenStream).eof = true

/-! ### Spec-side notions

The spec speaks of the arithmetic mean and the population standard deviation
of a batch; these are written here directly from the spec's words, to be
compared with what the code computes. -/

/-- Arithmetic mean of a batch of values. -/
noncomputable def batchMean (l : List ℝ) : ℝ :=
  l.sum / (l.length : ℝ)

/-- Population standard deviation of a batch of values. -/
noncomputable def popStdev (l : List ℝ) : ℝ :=
  Real.sqrt ((l.map (fun x => (x - batchMean l) ^ 2)).sum / (l.length : ℝ))

/-! ### Shared lemmas -/

lemma foldl_add_eq {α : Type} (f : α → ℝ) :
    ∀ (l : List α) (a : ℝ), l.foldl (fun acc x => acc + f x) a = a + (l.map f).sum := by
  intro l
  induction l with
  | nil => intro a; simp
  | cons x xs ih => intro a; simp [ih, add_assoc]

lemma get_norm_params_eq (m : PoreModel) (l : List ℝ) :
    m.get_norm_params l =
      ⟨m.model_mean_ - m.model_stdv_ / popStdev l * batchMean l,
        m.model_stdv_ / popStdev l⟩ := by
  have h1 : l.foldl (fun a e => a + e) 0 = l.sum := by
    simpa using foldl_add_eq (fun e => e) l 0
  have h2 : ∀ c : ℝ, l.foldl (fun a e => a + (e - c) ^ 2) 0 =
      (l.map (fun x => (x - c) ^ 2)).sum := by
    intro c
    simpa using foldl_add_eq (fun x => (x - c) ^ 2) l 0
  simp only [PoreModel.get_norm_params, popStdev, batchMean, h1, h2]

lemma get_norm_params_events_eq (m : PoreModel) (evs : List Event) :
    m.get_norm_params_events evs = m.get_norm_params (evs.map Event.mean) := by
  simp only [PoreModel.get_norm_params_events, PoreModel.get_norm_params,
    List.foldl_map, List.length_map]

lemma extractToken_fail_inv (n : ℕ) :
    ∀ s : StreamState, s.fail = true → s.eof = false →
      (extractToken^[n] s).fail = true ∧ (extractToken^[n] s).eof = false := by
  induction n with
  | zero => intro s hf he; simpa using ⟨hf, he⟩
  | succ n ih =>
    intro s hf he
    rw [Function.iterate_succ_apply]
    exact ih _ (by simp [extractToken, hf]) (by simp [extractToken, hf, he])

/-- A fixed concrete model table used to instantiate theorems with
hypotheses. -/
noncomputable def mTest : PoreModel :=
  { lv_means_ := fun _ => 5
    lv_vars_x2_ := fun _ => 2
    lognorm_denoms_ := fun _ => 3
    model_mean_ := 5
    model_stdv_ := 2
    kmer_count_ := 4
    k_ := none
    loaded_ := true }

lemma gnp_scale (m : PoreModel) (l : List ℝ) :
    (m.get_norm_params l).scale = m.model_stdv_ / popStdev l := by
  rw [get_norm_params_eq]

lemma gnp_shift (m : PoreModel) (l : List ℝ) :
    (m.get_norm_params l).shift =
      m.model_mean_ - m.model_stdv_ / popStdev l * batchMean l := by
  rw [get_norm_params_eq]

lemma normalize_estimated_affine (m : PoreModel) (l : List ℝ) :
    m.normalize l (m.get_norm_params l) =
      l.map (fun x => (m.get_norm_params l).scale * x + (m.get_norm_params l).shift) := by
  unfold PoreModel.normalize
  by_cases h : (m.get_norm_params l).scale = 0
  · rw [if_pos h]
  · rw [if_neg h]

lemma map_affine_sum (c d : ℝ) (l : List ℝ) :
    (l.map (fun x => c * x + d)).sum = c * l.sum + d * (l.length : ℝ) := by
  induction l with
  | nil => simp
  | cons x xs ih =>
    simp only [List.map_cons, List.sum_cons, List.length_cons, ih]
    push_cast
    ring

lemma map_mul_left_sum {α : Type} (c : ℝ) (g : α → ℝ) :
    ∀ l : List α, (l.map (fun x => c * g x)).sum = c * (l.map g).sum := by
  intro l
  induction l with
  | nil => simp
  | cons x xs ih => simp [ih, mul_add]

lemma length_cast_ne_zero (l : List ℝ) (hn : l ≠ []) : ((l.length : ℕ) : ℝ) ≠ 0 := by
  have h := List.length_pos.mpr hn
  exact_mod_cast Nat.pos_iff_ne_zero.mp h

lemma batchMean_map_affine (c d : ℝ) (l : List ℝ) (hn : l ≠ []) :
    batchMean (l.map (fun x => c * x + d)) = c * batchMean l + d := by
  unfold batchMean
  rw [List.length_map, map_affine_sum]
  field_simp [length_cast_ne_zero l hn]

lemma popStdev_map_affine (c d : ℝ) (l : List ℝ) (hn : l ≠ []) :
    popStdev (l.map (fun x => c * x + d)) = |c| * popStdev l := by
  unfold popStdev
  rw [List.length_map, List.map_map, batchMean_map_affine c d l hn]
  have hcomp : ((fun x => (x - (c * batchMean l + d)) ^ 2) ∘ fun x => c * x + d)
      = fun x => c ^ 2 * (x - batchMean l) ^ 2 := by
    funext x
    simp only [Function.comp]
    ring
  rw [hcomp, map_mul_left_sum, mul_div_assoc, Real.sqrt_mul (sq_nonneg c),
    Real.sqrt_sq_eq_abs]

lemma popStdev_nil_eq_zero : popStdev ([] : List ℝ) = 0 := by
  unfold popStdev
  simp

lemma batchMean_pair : batchMean [(0 : ℝ), 2] = 1 := by
  unfold batchMean
  norm_num

lemma popStdev_pair : popStdev [(0 : ℝ), 2] = 1 := by
  unfold popStdev
  rw [batchMean_pair]
  norm_num

lemma processRow_dataEq (kc : ℕ) (s2k : String → ℕ) (kcomp : ℕ → ℕ) (cp : Bool) (r : Row)
    (s t : LoadState)
    (h1 : s.lv_means_ = t.lv_means_) (h2 : s.lv_vars_x2_ = t.lv_vars_x2_)
    (h3 : s.lognorm_denoms_ = t.lognorm_denoms_) (h4 : s.model_mean_ = t.model_mean_) :
    (processRow kc s2k kcomp cp s r).lv_means_ = (processRow kc s2k kcomp cp t r).lv_means_ ∧
    (processRow kc s2k kcomp cp s r).lv_vars_x2_ =
      (processRow kc s2k kcomp cp t r).lv_vars_x2_ ∧
    (processRow kc s2k kcomp cp s r).lognorm_denoms_ =
      (processRow kc s2k kcomp cp t r).lognorm_denoms_ ∧
    (processRow kc s2k kcomp cp s r).model_mean_ =
      (processRow kc s2k kcomp cp t r).model_mean_ := by
  obtain ⟨sa, sb, sc, sd, se⟩ := s
  obtain ⟨ta, tb, tc, td, te⟩ := t
  simp only at h1 h2 h3 h4
  subst h1
  subst h2
  subst h3
  subst h4
  by_cases hk : effKmer s2k kcomp cp r < kc
  · simp [processRow, hk]
  · simp [processRow, hk]

lemma loadFold_dataEq (kc : ℕ) (s2k : String → ℕ) (kcomp : ℕ → ℕ) (cp : Bool) :
    ∀ (rows : List Row) (s t : LoadState),
      s.lv_means_ = t.lv_means_ → s.lv_vars_x2_ = t.lv_vars_x2_ →
      s.lognorm_denoms_ = t.lognorm_denoms_ → s.model_mean_ = t.model_mean_ →
      (List.foldl (processRow kc s2k kcomp cp) s rows).lv_means_ =
        (List.foldl (processRow kc s2k kcomp cp) t rows).lv_means_ ∧
      (List.foldl (processRow kc s2k kcomp cp) s rows).lv_vars_x2_ =
        (List.foldl (processRow kc s2k kcomp cp) t rows).lv_vars_x2_ ∧
      (List.foldl (processRow kc s2k kcomp cp) s rows).lognorm_denoms_ =
        (List.foldl (processRow kc s2k kcomp cp) t rows).lognorm_denoms_ ∧
      (List.foldl (processRow kc s2k kcomp cp) s rows).model_mean_ =
        (List.foldl (processRow kc s2k kcomp cp) t rows).model_mean_ := by
  intro rows
  induction rows with
  | nil =>
    intro s t h1 h2 h3 h4
    simpa using ⟨h1, h2, h3, h4⟩
  | cons r rs ih =>
    intro s t h1 h2 h3 h4
    simp only [List.foldl_cons]
    obtain ⟨g1, g2, g3, g4⟩ := processRow_dataEq kc s2k kcomp cp r s t h1 h2 h3 h4
    exact ih _ _ g1 g2 g3 g4

lemma loadFold_cerr_mono (kc : ℕ) (s2k : String → ℕ) (kcomp : ℕ → ℕ) (cp : Bool) (c : ℕ) :
    ∀ (rows : List Row) (s : LoadState), c ∈ s.cerr →
      c ∈ (List.foldl (processRow kc s2k kcomp cp) s rows).cerr := by
  intro rows
  induction rows with
  | nil => intro s h; simpa using h
  | cons r rs ih =>
    intro s h
    simp only [List.foldl_cons]
    apply ih
    by_cases hk : effKmer s2k kcomp cp r < kc
    · simpa [processRow, hk] using h
    · simp [processRow, hk]
      exact Or.inl h

lemma foldl_add_range (g : ℕ → ℝ) :
    ∀ (n : ℕ) (a : ℝ),
      (List.range n).foldl (fun acc i => acc + g i) a = a + ∑ i ∈ Finset.range n, g i := by
  intro n
  induction n with
  | zero => intro a; simp
  | succ n ih =>
    intro a
    rw [List.range_succ, List.foldl_append]
    simp [ih, Finset.sum_range_succ, add_assoc]

lemma loadFold_sum_invariant (kc : ℕ) (s2k : String → ℕ) (kcomp : ℕ → ℕ) (cp : Bool) :
    ∀ (rows : List Row) (st : LoadState),
      rows.Pairwise (fun r r' => effKmer s2k kcomp cp r < kc → effKmer s2k kcomp cp r' < kc →
        effKmer s2k kcomp cp r ≠ effKmer s2k kcomp cp r') →
      (∀ r ∈ rows, effKmer s2k kcomp cp r < kc → st.lv_means_ (effKmer s2k kcomp cp r) = 0) →
      (∑ i ∈ Finset.range kc, (List.foldl (processRow kc s2k kcomp cp) st rows).lv_means_ i) -
          (List.foldl (processRow kc s2k kcomp cp) st rows).model_mean_ =
        (∑ i ∈ Finset.range kc, st.lv_means_ i) - st.model_mean_ := by
  intro rows
  induction rows with
  | nil => intro st _ _; simp
  | cons r rs ih =>
    intro st hdist hz
    rw [List.foldl_cons, List.pairwise_cons] at *
    obtain ⟨hr, hrs⟩ := hdist
    by_cases hk : effKmer s2k kcomp cp r < kc
    · have hz0 : st.lv_means_ (effKmer s2k kcomp cp r) = 0 :=
        hz r (List.mem_cons_self r rs) hk
      have hz' : ∀ r' ∈ rs, effKmer s2k kcomp cp r' < kc →
          (processRow kc s2k kcomp cp st r).lv_means_ (effKmer s2k kcomp cp r') = 0 := by
        intro r' hmem hk'
        have hne : effKmer s2k kcomp cp r' ≠ effKmer s2k kcomp cp r :=
          Ne.symm (hr r' hmem hk hk')
        simp only [processRow, if_pos hk]
        rw [Function.update_noteq hne]
        exact hz r' (List.mem_cons_of_mem r hmem) hk'
      rw [ih (processRow kc s2k kcomp cp st r) hrs hz']
      have hj : effKmer s2k kcomp cp r ∈ Finset.range kc := Finset.mem_range.mpr hk
      simp only [processRow, if_pos hk]
      rw [Finset.sum_update_of_mem hj, Finset.sdiff_singleton_eq_erase,
        Finset.sum_erase_eq_sub hj, hz0]
      ring
    · have hz' : ∀ r' ∈ rs, effKmer s2k kcomp cp r' < kc →
          (processRow kc s2k kcomp cp st r).lv_means_ (effKmer s2k kcomp cp r') = 0 := by
        intro r' hmem hk'
        simp only [processRow, if_neg hk]
        exact hz r' (List.mem_cons_of_mem r hmem) hk'
      rw [ih (processRow kc s2k kcomp cp st r) hrs hz']
      simp [processRow, hk]

lemma initState_means_zero (kc : ℕ) (i : ℕ) (hi : i < kc) :
    (initState kc).lv_means_ i = 0 := by
  simp only [initState]
  rw [Function.update_noteq (Nat.ne_of_lt hi)]

lemma loadPoreModel_lv_means (kc : ℕ) (s2k : String → ℕ) (kcomp : ℕ → ℕ) (cp : Bool)
    (rows : List Row) :
    (loadPoreModel kc s2k kcomp cp rows).lv_means_ =
      (loadLoop kc s2k kcomp cp rows).lv_means_ := rfl

lemma loadPoreModel_lv_vars (kc : ℕ) (s2k : String → ℕ) (kcomp : ℕ → ℕ) (cp : Bool)
    (rows : List Row) :
    (loadPoreModel kc s2k kcomp cp rows).lv_vars_x2_ =
      (loadLoop kc s2k kcomp cp rows).lv_vars_x2_ := rfl

lemma loadPoreModel_lognorm (kc : ℕ) (s2k : String → ℕ) (kcomp : ℕ → ℕ) (cp : Bool)
    (rows : List Row) :
    (loadPoreModel kc s2k kcomp cp rows).lognorm_denoms_ =
      (loadLoop kc s2k kcomp cp rows).lognorm_denoms_ := rfl

lemma loadPoreModel_model_mean (kc : ℕ) (s2k : String → ℕ) (kcomp : ℕ → ℕ) (cp : Bool)
    (rows : List Row) :
    (loadPoreModel kc s2k kcomp cp rows).model_mean_ =
      (loadLoop kc s2k kcomp cp rows).model_mean_ / (kc : ℝ) := rfl

lemma loadPoreModel_model_stdv (kc : ℕ) (s2k : String → ℕ) (kcomp : ℕ → ℕ) (cp : Bool)
    (rows : List Row) :
    (loadPoreModel kc s2k kcomp cp rows).model_stdv_ =
      Real.sqrt
        (((List.range kc).foldl
            (fun a kmer => a + ((loadLoop kc s2k kcomp cp rows).lv_means_ kmer -
              (loadPoreModel kc s2k kcomp cp rows).model_mean_) ^ 2) 0) / (kc : ℝ)) := rfl

/-! ### Claims -/

/-- Claim C1 (refuted; code bug): on a file that cannot be opened the
constructor's `do … while (!model_in.eof())` loop never terminates — the
stream starts with `failbit` set, so every extraction's sentry fails without
reading and `eofbit` is never set; the loop guard therefore never becomes
false, for any column layout (`numTokens` tokens per row) and any number of
iterations.  Construction never completes, so it cannot leave
`loaded_ = false` as the claim states (and no path of this constructor ever
assigns `loaded_ = false`). -/
theorem c1_unopenable_file_loops_forever (numTokens iters : ℕ) :
    ¬ ctorLoopExits numTokens iters := by
  have key : ∀ (k : ℕ) (s : StreamState), s.fail = true → s.eof = false →
      ((readRowTokens numTokens)^[k] s).fail = true ∧
        ((readRowTokens numTokens)^[k] s).eof = false := by
    intro k
    induction k with
    | zero => intro s hf he; simpa using ⟨hf, he⟩
    | succ k ih =>
      intro s hf he
      rw [Function.iterate_succ_apply]
      have h := extractToken_fail_inv numTokens s hf he
      exact ih _ h.1 h.2
  intro hex
  unfold ctorLoopExits at hex
  have h := key iters failedOpenStream rfl rfl
  rw [h.2] at hex
  cases hex

/-- Claim C3: calling `normalize` with the default `{0,0}` sentinel produces
the same final batch as first computing the parameters with
`get_norm_params` on the unmodified batch and passing them explicitly,
whenever the estimated scale is not exactly 0; this holds for both the
raw-value and the `Event` overloads. -/
theorem c3_default_sentinel_equiv (m : PoreModel) (l : List ℝ) (evs : List Event)
    (h1 : (m.get_norm_params l).scale ≠ 0)
    (h2 : (m.get_norm_params_events evs).scale ≠ 0) :
    m.normalize l ⟨0, 0⟩ = m.normalize l (m.get_norm_params l) ∧
    m.normalize_events evs ⟨0, 0⟩ =
      m.normalize_events evs (m.get_norm_params_events evs) := by
  constructor
  · simp [PoreModel.normalize, h1]
  · simp [PoreModel.normalize_events, h2]

/-- Witness for C3 at a concrete model and batches. -/
theorem c3_default_sentinel_equiv_witness :
    ((mTest.get_norm_params [(0 : ℝ), 2]).scale ≠ 0 ∧
      (mTest.get_norm_params_events [⟨0⟩, ⟨2⟩]).scale ≠ 0) ∧
    (mTest.normalize [(0 : ℝ), 2] ⟨0, 0⟩ =
        mTest.normalize [(0 : ℝ), 2] (mTest.get_norm_params [(0 : ℝ), 2]) ∧
      mTest.normalize_events [⟨0⟩, ⟨2⟩] ⟨0, 0⟩ =
        mTest.normalize_events [⟨0⟩, ⟨2⟩] (mTest.get_norm_params_events [⟨0⟩, ⟨2⟩])) := by
  have h1 : (mTest.get_norm_params [(0 : ℝ), 2]).scale ≠ 0 := by
    rw [get_norm_params_eq]
    simp only [mTest, popStdev_pair]
    norm_num
  have h2 : (mTest.get_norm_params_events [⟨0⟩, ⟨2⟩]).scale ≠ 0 := by
    rw [get_norm_params_events_eq]
    exact h1
  exact ⟨⟨h1, h2⟩, c3_default_sentinel_equiv mTest [(0 : ℝ), 2] [⟨0⟩, ⟨2⟩] h1 h2⟩

/-- Claim C5: for any observed value and any k-mer id inside
`[0, kmer_count_)`, `event_match_prob` returns exactly
`-((x - means[id])^2 / variance2x[id]) - log_norm_denom[id]`, and the
`Event` overload returns the scalar overload applied to `event.mean`. -/
theorem c5_match_prob_formula (m : PoreModel) (x : ℝ) (k_id : ℕ)
    (h : k_id < m.kmer_count_) :
    m.event_match_prob x k_id =
      -((x - m.lv_means_ k_id) ^ 2 / m.lv_vars_x2_ k_id) - m.lognorm_denoms_ k_id ∧
    ∀ e : Event, m.event_match_prob_event e k_id = m.event_match_prob e.mean k_id := by
  refine ⟨?_, fun e => rfl⟩
  unfold PoreModel.event_match_prob
  rw [neg_div]

/-- Witness for C5 at a concrete model, value and id. -/
theorem c5_match_prob_formula_witness :
    1 < mTest.kmer_count_ ∧
    (mTest.event_match_prob 7 1 =
        -((7 - mTest.lv_means_ 1) ^ 2 / mTest.lv_vars_x2_ 1) - mTest.lognorm_denoms_ 1 ∧
      ∀ e : Event, mTest.event_match_prob_event e 1 = mTest.event_match_prob e.mean 1) :=
  ⟨by norm_num [mTest], c5_match_prob_formula mTest 7 1 (by norm_num [mTest])⟩

/-- Claim C8: for a fixed id whose stored `variance2x` is strictly positive,
the match log-probability is strictly larger for the observation closer (in
absolute distance) to the stored mean. -/
theorem c8_match_prob_monotone (m : PoreModel) (k_id : ℕ) (x1 x2 : ℝ)
    (hv : 0 < m.lv_vars_x2_ k_id)
    (hlt : |x1 - m.lv_means_ k_id| < |x2 - m.lv_means_ k_id|) :
    m.event_match_prob x1 k_id > m.event_match_prob x2 k_id := by
  have hsq : (x1 - m.lv_means_ k_id) ^ 2 < (x2 - m.lv_means_ k_id) ^ 2 := by
    have h := pow_lt_pow_left₀ hlt (abs_nonneg _) two_ne_zero
    simpa [sq_abs] using h
  have hdiv : (x1 - m.lv_means_ k_id) ^ 2 / m.lv_vars_x2_ k_id <
      (x2 - m.lv_means_ k_id) ^ 2 / m.lv_vars_x2_ k_id :=
    (div_lt_div_iff_of_pos_right hv).mpr hsq
  unfold PoreModel.event_match_prob
  rw [neg_div, neg_div]
  linarith

/-- Witness for C8 at a concrete model and observations. -/
theorem c8_match_prob_monotone_witness :
    (0 < mTest.lv_vars_x2_ 1 ∧ |6 - mTest.lv_means_ 1| < |9 - mTest.lv_means_ 1|) ∧
    mTest.event_match_prob 6 1 > mTest.event_match_prob 9 1 := by
  have hv : 0 < mTest.lv_vars_x2_ 1 := by norm_num [mTest]
  have hlt : |(6 : ℝ) - mTest.lv_means_ 1| < |(9 : ℝ) - mTest.lv_means_ 1| := by
    simp only [mTest]
    rw [show (6 : ℝ) - 5 = 1 by norm_num, show (9 : ℝ) - 5 = 4 by norm_num]
    rw [abs_of_nonneg (by norm_num : (0:ℝ) ≤ 1), abs_of_nonneg (by norm_num : (0:ℝ) ≤ 4)]
    norm_num
  exact ⟨⟨hv, hlt⟩, c8_match_prob_monotone mTest 1 6 9 hv hlt⟩

/-- Claim C9 (refuted; code bug): after constructing a `PoreModel` from a
model file, `kmer_len()` does not return the configured `KLEN`: the
file-reading constructor never assigns the member `k_` (only the default
constructor sets `k_ = 0`), so `kmer_len()` returns an indeterminate value —
in the embedding, the `k_` component of the constructed model is `none`
rather than `some KLEN`. -/
theorem c9_kmer_len_never_assigned (kmer_count_ : ℕ) (str_to_kmer : String → ℕ)
    (kmer_comp : ℕ → ℕ) (complement : Bool) (rows : List Row) :
    (loadPoreModel kmer_count_ str_to_kmer kmer_comp complement rows).kmer_len = none :=
  rfl

/-- Claim C10: passing `NormParams` with `scale = 0` and any shift `s`
triggers re-estimation: the shift is discarded, fresh parameters are computed
from the batch by `get_norm_params`, and the result equals both the
default-sentinel call and the batch mapped through the freshly estimated
affine transform; likewise for the `Event` overload. -/
theorem c10_zero_scale_reestimates (m : PoreModel) (l : List ℝ) (evs : List Event)
    (s : ℝ) :
    m.normalize l ⟨s, 0⟩ = m.normalize l ⟨0, 0⟩ ∧
    m.normalize l ⟨s, 0⟩ =
      l.map (fun e => (m.get_norm_params l).scale * e + (m.get_norm_params l).shift) ∧
    m.normalize_events evs ⟨s, 0⟩ = m.normalize_events evs ⟨0, 0⟩ ∧
    m.normalize_events evs ⟨s, 0⟩ =
      evs.map (fun e =>
        { e with mean := (m.get_norm_params_events evs).scale * e.mean +
            (m.get_norm_params_events evs).shift }) := by
  refine ⟨?_, ?_, ?_, ?_⟩ <;> simp [PoreModel.normalize, PoreModel.normalize_events]

/-- Claim C6: for a non-empty batch whose empirical (population) standard
deviation is non-zero, `get_norm_params` returns
`scale = model_stdv_ / s` and `shift = model_mean_ - scale * m` where `m` is
the batch's arithmetic mean and `s` its population standard deviation; and
the `Event` overload agrees with the scalar overload on the events' mean
values. -/
theorem c6_norm_params_formula (m : PoreModel) (l : List ℝ) (evs : List Event)
    (hne : l ≠ []) (hs : popStdev l ≠ 0) :
    (m.get_norm_params l).scale = m.model_stdv_ / popStdev l ∧
    (m.get_norm_params l).shift =
      m.model_mean_ - m.model_stdv_ / popStdev l * batchMean l ∧
    m.get_norm_params_events evs = m.get_norm_params (evs.map Event.mean) :=
  ⟨gnp_scale m l, gnp_shift m l, get_norm_params_events_eq m evs⟩

/-- Witness for C6 at a concrete model and batch. -/
theorem c6_norm_params_formula_witness :
    ([(0 : ℝ), 2] ≠ ([] : List ℝ) ∧ popStdev [(0 : ℝ), 2] ≠ 0) ∧
    ((mTest.get_norm_params [(0 : ℝ), 2]).scale = mTest.model_stdv_ / popStdev [(0 : ℝ), 2] ∧
      (mTest.get_norm_params [(0 : ℝ), 2]).shift =
        mTest.model_mean_ - mTest.model_stdv_ / popStdev [(0 : ℝ), 2] * batchMean [(0 : ℝ), 2] ∧
      mTest.get_norm_params_events [⟨0⟩, ⟨2⟩] =
        mTest.get_norm_params ([⟨0⟩, ⟨2⟩].map Event.mean)) := by
  have hne : [(0 : ℝ), 2] ≠ ([] : List ℝ) := by simp
  have hs : popStdev [(0 : ℝ), 2] ≠ 0 := by
    rw [popStdev_pair]
    norm_num
  exact ⟨⟨hne, hs⟩, c6_norm_params_formula mTest [(0 : ℝ), 2] [⟨0⟩, ⟨2⟩] hne hs⟩

/-- Claim C7: for a batch with non-zero population standard deviation,
normalizing with the freshly estimated parameters yields a batch whose
arithmetic mean is the model's `model_mean_` and whose population standard
deviation is the model's `model_stdv_` (exactly, in real arithmetic; the
model's stored deviation is non-negative, being a square root). -/
theorem c7_roundtrip_mean_stdev (m : PoreModel) (l : List ℝ)
    (hstdv : 0 ≤ m.model_stdv_) (hs : popStdev l ≠ 0) :
    batchMean (m.normalize l (m.get_norm_params l)) = m.model_mean_ ∧
    popStdev (m.normalize l (m.get_norm_params l)) = m.model_stdv_ := by
  have hnil : l ≠ [] := by
    intro h
    rw [h, popStdev_nil_eq_zero] at hs
    exact hs rfl
  have hσ0 : 0 ≤ popStdev l := by
    unfold popStdev
    exact Real.sqrt_nonneg _
  have hc0 : 0 ≤ m.model_stdv_ / popStdev l := div_nonneg hstdv hσ0
  rw [normalize_estimated_affine, gnp_scale, gnp_shift]
  constructor
  · rw [batchMean_map_affine _ _ _ hnil]
    ring
  · rw [popStdev_map_affine _ _ _ hnil, abs_of_nonneg hc0, div_mul_cancel₀ _ hs]

/-- Witness for C7 at a concrete model and batch. -/
theorem c7_roundtrip_mean_stdev_witness :
    (0 ≤ mTest.model_stdv_ ∧ popStdev [(0 : ℝ), 2] ≠ 0) ∧
    (batchMean (mTest.normalize [(0 : ℝ), 2] (mTest.get_norm_params [(0 : ℝ), 2])) =
        mTest.model_mean_ ∧
      popStdev (mTest.normalize [(0 : ℝ), 2] (mTest.get_norm_params [(0 : ℝ), 2])) =
        mTest.model_stdv_) := by
  have hstdv : 0 ≤ mTest.model_stdv_ := by norm_num [mTest]
  have hs : popStdev [(0 : ℝ), 2] ≠ 0 := by
    rw [popStdev_pair]
    norm_num
  exact ⟨⟨hstdv, hs⟩, c7_roundtrip_mean_stdev mTest [(0 : ℝ), 2] hstdv hs⟩

/-- Claim C2: a row whose k-mer token decodes (after optional complementing)
to an identifier outside `[0, kmer_count_)` leaves all stored data exactly as
if the row were absent — the three per-k-mer arrays, the accumulated mean
(hence `model_mean_`) and `model_stdv_` are those of the same file without
that row — while the invalid id is printed to `std::cerr`, the remaining rows
are still processed, and `is_loaded()` returns `true` afterwards. -/
theorem c2_invalid_kmer_row_skipped (kc : ℕ) (s2k : String → ℕ) (kcomp : ℕ → ℕ) (cp : Bool)
    (pre suf : List Row) (r : Row) (hbad : kc ≤ effKmer s2k kcomp cp r) :
    (loadPoreModel kc s2k kcomp cp (pre ++ r :: suf)).lv_means_ =
      (loadPoreModel kc s2k kcomp cp (pre ++ suf)).lv_means_ ∧
    (loadPoreModel kc s2k kcomp cp (pre ++ r :: suf)).lv_vars_x2_ =
      (loadPoreModel kc s2k kcomp cp (pre ++ suf)).lv_vars_x2_ ∧
    (loadPoreModel kc s2k kcomp cp (pre ++ r :: suf)).lognorm_denoms_ =
      (loadPoreModel kc s2k kcomp cp (pre ++ suf)).lognorm_denoms_ ∧
    (loadPoreModel kc s2k kcomp cp (pre ++ r :: suf)).model_mean_ =
      (loadPoreModel kc s2k kcomp cp (pre ++ suf)).model_mean_ ∧
    (loadPoreModel kc s2k kcomp cp (pre ++ r :: suf)).model_stdv_ =
      (loadPoreModel kc s2k kcomp cp (pre ++ suf)).model_stdv_ ∧
    effKmer s2k kcomp cp r ∈ loadCerr kc s2k kcomp cp (pre ++ r :: suf) ∧
    (loadPoreModel kc s2k kcomp cp (pre ++ r :: suf)).is_loaded = true := by
  have hif : ¬ (effKmer s2k kcomp cp r < kc) := not_lt.mpr hbad
  have hL1 : loadLoop kc s2k kcomp cp (pre ++ r :: suf) =
      List.foldl (processRow kc s2k kcomp cp)
        (processRow kc s2k kcomp cp
          (List.foldl (processRow kc s2k kcomp cp) (initState kc) pre) r) suf := by
    simp [loadLoop, List.foldl_append]
  have hL2 : loadLoop kc s2k kcomp cp (pre ++ suf) =
      List.foldl (processRow kc s2k kcomp cp)
        (List.foldl (processRow kc s2k kcomp cp) (initState kc) pre) suf := by
    simp [loadLoop, List.foldl_append]
  have hdata := loadFold_dataEq kc s2k kcomp cp suf
    (processRow kc s2k kcomp cp
      (List.foldl (processRow kc s2k kcomp cp) (initState kc) pre) r)
    (List.foldl (processRow kc s2k kcomp cp) (initState kc) pre)
    (by simp [processRow, hif]) (by simp [processRow, hif])
    (by simp [processRow, hif]) (by simp [processRow, hif])
  obtain ⟨hm, hv, hd, hmm⟩ := hdata
  refine ⟨?_, ?_, ?_, ?_, ?_, ?_, rfl⟩
  · rw [loadPoreModel_lv_means, loadPoreModel_lv_means, hL1, hL2]
    exact hm
  · rw [loadPoreModel_lv_vars, loadPoreModel_lv_vars, hL1, hL2]
    exact hv
  · rw [loadPoreModel_lognorm, loadPoreModel_lognorm, hL1, hL2]
    exact hd
  · rw [loadPoreModel_model_mean, loadPoreModel_model_mean, hL1, hL2, hmm]
  · rw [loadPoreModel_model_stdv, loadPoreModel_model_stdv,
      loadPoreModel_model_mean, loadPoreModel_model_mean, hL1, hL2, hm, hmm]
  · simp only [loadCerr]
    rw [hL1]
    apply loadFold_cerr_mono
    simp [processRow, hif]

/-- Claim C4: provided no two rows of the file store under the same k-mer
identifier, after construction `model_mean_` equals the sum of the stored
`lv_means_` slots over `[0, kmer_count_)` divided by `kmer_count_` (the
theoretical k-mer-space size), and `model_stdv_` equals the square root of
the mean over all `kmer_count_` slots — populated or not — of the squared
deviation from `model_mean_` (the population standard deviation over every
slot). -/
theorem c4_global_mean_stdev (kc : ℕ) (s2k : String → ℕ) (kcomp : ℕ → ℕ) (cp : Bool)
    (rows : List Row)
    (hdist : rows.Pairwise (fun r r' =>
      effKmer s2k kcomp cp r < kc → effKmer s2k kcomp cp r' < kc →
        effKmer s2k kcomp cp r ≠ effKmer s2k kcomp cp r')) :
    (loadPoreModel kc s2k kcomp cp rows).model_mean_ =
      (∑ i ∈ Finset.range kc, (loadPoreModel kc s2k kcomp cp rows).lv_means_ i) / (kc : ℝ) ∧
    (loadPoreModel kc s2k kcomp cp rows).model_stdv_ =
      Real.sqrt ((∑ i ∈ Finset.range kc,
        ((loadPoreModel kc s2k kcomp cp rows).lv_means_ i -
          (loadPoreModel kc s2k kcomp cp rows).model_mean_) ^ 2) / (kc : ℝ)) := by
  have hz : ∀ r ∈ rows, effKmer s2k kcomp cp r < kc →
      (initState kc).lv_means_ (effKmer s2k kcomp cp r) = 0 :=
    fun r _ hk => initState_means_zero kc _ hk
  have hinv := loadFold_sum_invariant kc s2k kcomp cp rows (initState kc) hdist hz
  have hinit_sum : ∑ i ∈ Finset.range kc, (initState kc).lv_means_ i = 0 :=
    Finset.sum_eq_zero (fun i hi => initState_means_zero kc i (Finset.mem_range.mp hi))
  have hinit_mm : (initState kc).model_mean_ = 0 := rfl
  rw [hinit_sum, hinit_mm, sub_zero] at hinv
  have hsum : ∑ i ∈ Finset.range kc,
      (loadLoop kc s2k kcomp cp rows).lv_means_ i =
        (loadLoop kc s2k kcomp cp rows).model_mean_ := by
    have h := sub_eq_zero.mp hinv
    exact h
  constructor
  · rw [loadPoreModel_model_mean, loadPoreModel_lv_means, hsum]
  · rw [loadPoreModel_model_stdv, loadPoreModel_lv_means,
      foldl_add_range
        (fun kmer => ((loadLoop kc s2k kcomp cp rows).lv_means_ kmer -
          (loadPoreModel kc s2k kcomp cp rows).model_mean_) ^ 2) kc 0,
      zero_add]

/-- Every constructed model's `model_stdv_` is a square root, hence
non-negative — the hypothesis of the round-trip property C7 holds for every
model produced by the loader. -/
lemma loadPoreModel_stdv_nonneg (kc : ℕ) (s2k : String → ℕ) (kcomp : ℕ → ℕ) (cp : Bool)
    (rows : List Row) : 0 ≤ (loadPoreModel kc s2k kcomp cp rows).model_stdv_ := by
  rw [loadPoreModel_model_stdv]
  exact Real.sqrt_nonneg _

/-- Concrete k-mer decoder for witnesses (`k = 2` over a 2-symbol space). -/
def witS2k : String → ℕ :=
  fun s => if s = "AA" then 0 else if s = "AC" then 1 else 7

/-- Concrete model-file row storing under id 0. -/
noncomputable def witRowA : Row :=
  { kmer_str := "AA", lv_mean := 4, lv_stdv := 1 }

/-- Concrete model-file row storing under id 1. -/
noncomputable def witRowC : Row :=
  { kmer_str := "AC", lv_mean := 6, lv_stdv := 1 }

/-- Concrete model-file row whose token decodes to the out-of-range id 7. -/
noncomputable def witRowBad : Row :=
  { kmer_str := "GG", lv_mean := 100, lv_stdv := 3 }

/-- Witness for C2 at a concrete decoder, file and bad row. -/
theorem c2_invalid_kmer_row_skipped_witness :
    2 ≤ effKmer witS2k id false witRowBad ∧
    ((loadPoreModel 2 witS2k id false ([witRowA] ++ witRowBad :: [witRowC])).lv_means_ =
        (loadPoreModel 2 witS2k id false ([witRowA] ++ [witRowC])).lv_means_ ∧
      (loadPoreModel 2 witS2k id false ([witRowA] ++ witRowBad :: [witRowC])).lv_vars_x2_ =
        (loadPoreModel 2 witS2k id false ([witRowA] ++ [witRowC])).lv_vars_x2_ ∧
      (loadPoreModel 2 witS2k id false ([witRowA] ++ witRowBad :: [witRowC])).lognorm_denoms_ =
        (loadPoreModel 2 witS2k id false ([witRowA] ++ [witRowC])).lognorm_denoms_ ∧
      (loadPoreModel 2 witS2k id false ([witRowA] ++ witRowBad :: [witRowC])).model_mean_ =
        (loadPoreModel 2 witS2k id false ([witRowA] ++ [witRowC])).model_mean_ ∧
      (loadPoreModel 2 witS2k id false ([witRowA] ++ witRowBad :: [witRowC])).model_stdv_ =
        (loadPoreModel 2 witS2k id false ([witRowA] ++ [witRowC])).model_stdv_ ∧
      effKmer witS2k id false witRowBad ∈
        loadCerr 2 witS2k id false ([witRowA] ++ witRowBad :: [witRowC]) ∧
      (loadPoreModel 2 witS2k id false ([witRowA] ++ witRowBad :: [witRowC])).is_loaded =
        true) := by
  have hbad : 2 ≤ effKmer witS2k id false witRowBad := by
    simp [effKmer, witS2k, witRowBad]
  exact ⟨hbad, c2_invalid_kmer_row_skipped 2 witS2k id false [witRowA] [witRowC] witRowBad hbad⟩

/-- Witness for C4 at a concrete decoder and two-row file. -/
theorem c4_global_mean_stdev_witness :
    ([witRowA, witRowC].Pairwise (fun r r' =>
        effKmer witS2k id false r < 2 → effKmer witS2k id false r' < 2 →
          effKmer witS2k id false r ≠ effKmer witS2k id false r')) ∧
    ((loadPoreModel 2 witS2k id false [witRowA, witRowC]).model_mean_ =
        (∑ i ∈ Finset.range 2,
          (loadPoreModel 2 witS2k id false [witRowA, witRowC]).lv_means_ i) / (2 : ℝ) ∧
      (loadPoreModel 2 witS2k id false [witRowA, witRowC]).model_stdv_ =
        Real.sqrt ((∑ i ∈ Finset.range 2,
          ((loadPoreModel 2 witS2k id false [witRowA, witRowC]).lv_means_ i -
            (loadPoreModel 2 witS2k id false [witRowA, witRowC]).model_mean_) ^ 2) /
              (2 : ℝ))) := by
  have hdist : [witRowA, witRowC].Pairwise (fun r r' =>
      effKmer witS2k id false r < 2 → effKmer witS2k id false r' < 2 →
        effKmer witS2k id false r ≠ effKmer witS2k id false r') := by
    refine List.Pairwise.cons ?_ (List.pairwise_singleton _ _)
    intro r' hmem
    have hr' : r' = witRowC := by simpa using hmem
    subst hr'
    intro _ _
    simp [effKmer, witS2k, witRowA, witRowC]
  exact ⟨hdist, c4_global_mean_stdev 2 witS2k id false [witRowA, witRowC] hdist⟩

end Uncalled
